import Mathlib

/-!
Verification development for the AI Job Seeker retrieval-augmented answering
system.  The repository ships the design documents, requirements and the
Next.js frontend; the backend core (chunker, vector index, retriever, answer
composer, reindex coordinator) is described by the specification but its
Python sources are not part of the repository snapshot.  The core is therefore
modelled from the specification, while the frontend behaviour (chat submission,
error handling, localStorage persistence) is embedded from the TypeScript
sources in frontend/src.
-/

namespace AIJobSeeker

/-- Modelled from the spec: the backend `VectorRecord` data model (§3) —
`id` deterministic from document and chunk, a fixed-dimension embedding,
metadata (document id, heading path, chunk index) and the chunk text.
Embeddings are modelled as integer vectors with inner-product similarity
(the spec fixes cosine or inner-product at configuration time). -/
structure VectorRecord where
  id : Nat
  embedding : List Int
  document_id : String
  heading_path : List String
  chunk_index : Nat
  text : String
deriving DecidableEq, Repr

/-- A published index snapshot: the full record set of the Vector Index. -/
abbrev Snapshot := List VectorRecord

/-- Inner product of two integer vectors (similarity kernel). -/
def dot : List Int → List Int → Int
  | [], _ => 0
  | _, [] => 0
  | a :: as, b :: bs => a * b + dot as bs

/-- Similarity score of a record against a query embedding. -/
def simScore (e : List Int) (r : VectorRecord) : Int :=
  dot e r.embedding

/-- Modelled from the spec: the ranking order of `query` (§4.3) — descending
similarity, ties broken by ascending record id. -/
def queryLe (a b : VectorRecord × Int) : Bool :=
  decide (b.2 < a.2) || (decide (a.2 = b.2) && decide (a.1.id ≤ b.1.id))

/-- Modelled from the spec: `query(embedding, k)` of the Vector Index (§4.3) —
score every record, sort by descending similarity with ascending-id
tie-break, return the first `k`. -/
def query (snap : Snapshot) (e : List Int) (k : Nat) : List (VectorRecord × Int) :=
  ((snap.map (fun r => (r, simScore e r))).mergeSort queryLe).take k

/-- Modelled from the spec: a single-record upsert of the Vector Index (§4.3) —
the record replaces any prior record carrying the same id. -/
def upsertOne (t : Snapshot) (r : VectorRecord) : Snapshot :=
  t.filter (fun x => decide (x.id ≠ r.id)) ++ [r]

/-- Modelled from the spec: `upsert(records)` of the Vector Index (§4.3) —
apply each record of the batch in turn, replace-by-id semantics. -/
def upsert (rs : List VectorRecord) (s : Snapshot) : Snapshot :=
  rs.foldl upsertOne s

/-- Lookup of a record by id in a snapshot. -/
def lookupId (s : Snapshot) (i : Nat) : Option VectorRecord :=
  s.find? (fun x => decide (x.id = i))

/-- Modelled from the spec: `rebuild(new_records)` of the Vector Index (§4.3) —
copy-on-write, the fully built replacement snapshot is published in a single
atomic reference swap replacing the entire contents. -/
def rebuild (_old new : Snapshot) : Snapshot := new

/-- The snapshot a reader observes around a rebuild: a query takes one atomic
read of the published reference, which is the old snapshot before the swap
and the rebuilt one after — never an intermediate structure (§4.3, §5). -/
def observe (old new : Snapshot) (swapped : Bool) : Snapshot :=
  if swapped then rebuild old new else old

/-- Modelled from the spec: error taxonomy of the core (§7). -/
inductive CoreError where
  | chunkingError
  | embeddingUnavailable
  | generationUnavailable
  | reindexInProgress
deriving DecidableEq, Repr

/-- Modelled from the spec: the Reindex Coordinator state (§4.6) — the
published index snapshot plus the single in-flight flag guarding the
write path. -/
structure Coordinator where
  inFlight : Bool
  index : Snapshot
deriving DecidableEq, Repr

/-- Modelled from the spec: `reindex(document_source)` (§4.6) — rejected
immediately with `ReindexInProgress` while a reindex is in flight (never
queued), otherwise rebuilds the index from the assembled record set and
returns the count of chunks indexed. -/
def reindexOp (c : Coordinator) (newRecords : List VectorRecord) :
    Except CoreError Nat × Coordinator :=
  if c.inFlight then
    (Except.error CoreError.reindexInProgress, c)
  else
    (Except.ok newRecords.length,
      { inFlight := false, index := rebuild c.index newRecords })

/-- Modelled from the spec: `RetrievedPassage` (§3) — chunk metadata, text
and similarity score, produced per query. -/
structure RetrievedPassage where
  document_id : String
  heading_path : List String
  chunk_index : Nat
  text : String
  score : Int
deriving DecidableEq, Repr

/-- Modelled from the spec: `retrieve(question, k)` (§4.4) — query the index
with the question embedding, map records to passages, drop passages below
the minimum similarity threshold. -/
def retrieve (snap : Snapshot) (e : List Int) (k : Nat) (threshold : Int) :
    List RetrievedPassage :=
  ((query snap e k).map
      (fun x => RetrievedPassage.mk x.1.document_id x.1.heading_path
        x.1.chunk_index x.1.text x.2)).filter
    (fun p => decide (threshold ≤ p.score))

/-- Modelled from the spec: `Answer` (§3) — answer text, deduplicated source
document identifiers in first-retrieved order, and generation latency. -/
structure Answer where
  text : String
  sources : List String
  generation_latency : Nat
deriving DecidableEq, Repr

/-- First-occurrence deduplication: keep each value the first time it appears,
drop every later repetition. -/
def dedupFirst : List String → List String
  | [] => []
  | x :: xs => x :: dedupFirst (xs.filter (fun y => decide (y ≠ x)))
termination_by l => l.length
decreasing_by
  exact Nat.lt_succ_of_le (List.length_filter_le _ _)

/-- Modelled from the spec: the grounded prompt of the Answer Composer (§4.5) —
fixed instruction, passage texts with provenance, tail of history. -/
def buildPrompt (question : String) (history : List (String × String))
    (passages : List RetrievedPassage) : String :=
  "Answer only from the supplied passages.\n"
    ++ String.join (passages.map (fun p => p.document_id ++ ": " ++ p.text ++ "\n"))
    ++ String.join (history.map (fun t => t.1 ++ ": " ++ t.2 ++ "\n"))
    ++ question

/-- Modelled from the spec: `compose(question, history, passages)` (§4.5) —
one generation call on the grounded prompt; `sources` is the document ids of
the retrieved passages, deduplicated preserving first-seen order. -/
def compose (gen : String → String) (question : String)
    (history : List (String × String)) (passages : List RetrievedPassage)
    (latency : Nat) : Answer :=
  { text := gen (buildPrompt question history passages)
    sources := dedupFirst (passages.map (fun p => p.document_id))
    generation_latency := latency }

/-- Modelled from the spec: the explicit no-grounding response required when
retrieval is empty (§4.4, §7, scenario 5). -/
def noGroundingText : String :=
  "No strong grounding found in the knowledge base for this question."

/-- Modelled from the spec: `answer_question(question, history)` (§6) —
embed the question, retrieve, and compose; when every passage falls below the
similarity threshold the composer still returns a well-formed Answer carrying
the explicit no-grounding indication instead of raising. -/
def answerQuestion (embed : String → Except CoreError (List Int))
    (gen : String → String) (snap : Snapshot) (k : Nat) (threshold : Int)
    (question : String) (history : List (String × String)) (latency : Nat) :
    Except CoreError Answer :=
  match embed question with
  | Except.error e => Except.error e
  | Except.ok emb =>
      let passages := retrieve snap emb k threshold
      if passages.isEmpty then
        Except.ok { text := noGroundingText, sources := [], generation_latency := latency }
      else
        Except.ok (compose gen question history passages latency)

/-- Modelled from the spec: the result of `health()` (§6) — exactly the three
boolean probe fields. -/
structure HealthStatus where
  index_ready : Bool
  embedding_reachable : Bool
  generation_reachable : Bool
deriving DecidableEq, Repr

/-- Modelled from the spec: `health()` (§6) — a lightweight probe of each
collaborator with no side effects; state-passing style makes the absence of
mutation explicit. -/
def healthOp (embedOk genOk : Bool) (c : Coordinator) :
    HealthStatus × Coordinator :=
  ({ index_ready := decide (c.index ≠ []),
     embedding_reachable := embedOk,
     generation_reachable := genOk }, c)

/-! Frontend embedding, from frontend/src (types/api.ts, lib/api.ts,
app/page.tsx). -/

/-- `ChatMessage` of types/api.ts: id, role ('user' | 'assistant'), content,
timestamp — all strings in the wire/storage representation. -/
structure ChatMessage where
  id : String
  role : String
  content : String
  timestamp : String
deriving DecidableEq, Repr

/-- `ChatHistoryItem` of types/api.ts: the role/content reduction sent to the
backend. -/
structure ChatHistoryItem where
  role : String
  content : String
deriving DecidableEq, Repr

/-- `AnswerResponse` of types/api.ts, as consumed by handleSubmit. -/
structure AnswerResponse where
  answer : String
  timestamp : String
deriving DecidableEq, Repr

/-- Whitespace trimming on the character-list view of a string:
`question.trim()` of page.tsx. -/
def trimChars (l : List Char) : List Char :=
  ((l.dropWhile Char.isWhitespace).reverse.dropWhile Char.isWhitespace).reverse

/-- `String.prototype.trim` as used by handleSubmit. -/
def jsTrim (s : String) : String := String.mk (trimChars s.data)

/-- page.tsx handleSubmit: `messages.slice(-6).map(item => ({role, content}))` —
the history payload passed to api.askQuestion. -/
def historyPayload (messages : List ChatMessage) : List ChatHistoryItem :=
  (messages.drop (messages.length - 6)).map
    (fun m => ChatHistoryItem.mk m.role m.content)

/-- page.tsx: the fixed failure text shown when api.askQuestion rejects. -/
def fetchFailureText : String :=
  "回答の取得に失敗しました。時間をおいて再試行してください。"

/-- page.tsx: the validation text for an empty (all-whitespace) question. -/
def emptyQuestionText : String := "質問を入力してください。"

/-- The Home component state handleSubmit reads and writes:
question, messages, isLoading, errorMessage. -/
structure HomeState where
  question : String
  messages : List ChatMessage
  isLoading : Bool
  errorMessage : Option String
deriving DecidableEq, Repr

/-- page.tsx handleSubmit, embedded as a state transformer.  `userId`,
`asstId` stand for the generated message ids, `now` for the wall-clock
timestamps taken during the call, and `callResult` for the settled promise of
`api.askQuestion` (ok: the response; error: any rejection).  The second
component records the arguments sent to askQuestion (`none` when the guards
return before the call). -/
def handleSubmit (s : HomeState) (userId asstId now : String)
    (callResult : Except Unit AnswerResponse) :
    HomeState × Option (String × List ChatHistoryItem) :=
  if s.isLoading then (s, none)
  else
    let trimmed := jsTrim s.question
    if trimmed = "" then
      ({ s with errorMessage := some emptyQuestionText }, none)
    else
      let payload := historyPayload s.messages
      let userMessage : ChatMessage :=
        { id := userId, role := "user", content := trimmed, timestamp := now }
      match callResult with
      | Except.ok resp =>
          ({ question := ""
             messages := s.messages ++ [userMessage,
               { id := asstId, role := "assistant", content := resp.answer,
                 timestamp := resp.timestamp }]
             isLoading := false
             errorMessage := none }, some (trimmed, payload))
      | Except.error _ =>
          ({ question := ""
             messages := s.messages ++ [userMessage,
               { id := asstId, role := "assistant", content := fetchFailureText,
                 timestamp := now }]
             isLoading := false
             errorMessage := some fetchFailureText }, some (trimmed, payload))

/-- An item of the array stored under the localStorage key, as page.tsx
inspects it: the ChatMessage fields and the legacy question/answer fields,
each possibly absent. -/
structure StoredItem where
  id : String
  role : Option String
  content : Option String
  timestamp : String
  question : Option String
  answer : Option String
deriving DecidableEq, Repr

/-- What JSON.parse can yield for the stored string in page.tsx's load effect:
a parse failure (the catch branch), a non-array value (the Array.isArray
guard fails), or an array of items. -/
inductive StoredData where
  | unparseable
  | nonArray
  | arr (items : List StoredItem)
deriving DecidableEq, Repr

/-- JSON.stringify of a ChatMessage, viewed through JSON.parse: every
ChatMessage field present, no legacy question/answer fields. -/
def encodeMessage (m : ChatMessage) : StoredItem :=
  { id := m.id, role := some m.role, content := some m.content,
    timestamp := m.timestamp, question := none, answer := none }

/-- page.tsx load effect: `setMessages(parsed)` uses the parsed objects as
ChatMessages directly. -/
def decodeItem (it : StoredItem) : ChatMessage :=
  { id := it.id, role := it.role.getD "", content := it.content.getD "",
    timestamp := it.timestamp }

/-- page.tsx load effect: `parsed.some(item => typeof item.question ===
'string' && typeof item.answer === 'string')`. -/
def hasLegacyPairs (items : List StoredItem) : Bool :=
  items.any (fun it => it.question.isSome && it.answer.isSome)

/-- page.tsx load effect: `.sort((a, b) => a.timestamp.localeCompare(b.timestamp))`
on the legacy entries — a stable sort by timestamp. -/
def sortByTimestamp (items : List StoredItem) : List StoredItem :=
  items.mergeSort (fun a b => decide (a.timestamp ≤ b.timestamp))

/-- page.tsx load effect: the legacy migration — sort the {question, answer}
pairs by timestamp and flatten each into a user message and an assistant
message sharing the pair's timestamp. -/
def migrateLegacy (items : List StoredItem) : List ChatMessage :=
  (sortByTimestamp items).flatMap (fun it =>
    [{ id := it.id ++ "-q", role := "user", content := it.question.getD "",
       timestamp := it.timestamp },
     { id := it.id ++ "-a", role := "assistant", content := it.answer.getD "",
       timestamp := it.timestamp }])

/-- page.tsx save effect: `localStorage.setItem(STORAGE_KEY,
JSON.stringify(messages))`, viewed through JSON.parse. -/
def saveValue (messages : List ChatMessage) : StoredData :=
  StoredData.arr (messages.map encodeMessage)

/-- page.tsx load effect over the storage slot of STORAGE_KEY: returns the
messages installed by setMessages and the slot afterwards.  An absent key
leaves everything alone; a parse failure removes the key (the catch branch);
a non-array parse installs nothing; an array either migrates legacy pairs or
is restored as-is. -/
def loadEffect (slot : Option StoredData) :
    List ChatMessage × Option StoredData :=
  match slot with
  | none => ([], none)
  | some StoredData.unparseable => ([], none)
  | some StoredData.nonArray => ([], some StoredData.nonArray)
  | some (StoredData.arr items) =>
      (if hasLegacyPairs items then migrateLegacy items
       else items.map decodeItem, some (StoredData.arr items))

/-! Sample data used by the closed witness statements. -/

/-- A sample indexed record. -/
def recA : VectorRecord := ⟨1, [2, 0], "doc-a", ["Self-PR"], 0, "alpha"⟩

/-- A second sample indexed record. -/
def recB : VectorRecord := ⟨2, [0, 3], "doc-b", [], 1, "beta"⟩

/-- A sample retrieved passage. -/
def passA : RetrievedPassage := ⟨"doc-a", ["Self-PR"], 0, "alpha", 5⟩

/-- A second sample retrieved passage, repeating the first document. -/
def passB : RetrievedPassage := ⟨"doc-b", [], 1, "beta", 4⟩

/-- A sample chat message. -/
def msgA : ChatMessage := ⟨"m1", "user", "hello", "t1"⟩

/-- A second sample chat message. -/
def msgB : ChatMessage := ⟨"m2", "assistant", "hi", "t2"⟩

/-- A sample legacy stored pair. -/
def legacyA : StoredItem := ⟨"p1", none, none, "t2", some "q1", some "a1"⟩

/-- A second sample legacy stored pair with an earlier timestamp. -/
def legacyB : StoredItem := ⟨"p2", none, none, "t1", some "q2", some "a2"⟩

/-- A sample Home state with a non-empty question and an idle form. -/
def sampleHome : HomeState := ⟨"hi", [msgA, msgB], false, none⟩

/-- A replacement for `recA`: same id, new vector, metadata and text. -/
def recAv2 : VectorRecord := ⟨1, [9, 9], "doc-a2", ["Updated"], 3, "alpha-v2"⟩

/-- A stub embedding gateway that always succeeds. -/
def embedStub : String → Except CoreError (List Int) := fun _ => Except.ok [1]

/-- A stub generation gateway. -/
def genStub : String → String := fun _ => "generated"

/-- A sample successful AnswerResponse. -/
def respStub : AnswerResponse := ⟨"ok", "t3"⟩

/-- A coordinator with a reindex in flight. -/
def coordBusy : Coordinator := ⟨true, [recA]⟩

/-! Lemmas about the ranking order of `query`. -/

theorem queryLe_trans (a b c : VectorRecord × Int) :
    queryLe a b = true → queryLe b c = true → queryLe a c = true := by
  simp only [queryLe, Bool.or_eq_true, Bool.and_eq_true, decide_eq_true_eq]
  rintro (hab | ⟨hab, hab'⟩) (hbc | ⟨hbc, hbc'⟩)
  · exact Or.inl (lt_trans hbc hab)
  · exact Or.inl (hbc ▸ hab)
  · exact Or.inl (hab ▸ hbc)
  · exact Or.inr ⟨hab.trans hbc, le_trans hab' hbc'⟩

theorem queryLe_total (a b : VectorRecord × Int) :
    (queryLe a b || queryLe b a) = true := by
  simp only [queryLe, Bool.or_eq_true, Bool.and_eq_true, decide_eq_true_eq]
  rcases lt_trichotomy a.2 b.2 with h | h | h
  · exact Or.inr (Or.inl h)
  · rcases le_total a.1.id b.1.id with h' | h'
    · exact Or.inl (Or.inr ⟨h, h'⟩)
    · exact Or.inr (Or.inr ⟨h.symm, h'⟩)
  · exact Or.inl (Or.inl h)

theorem queryLe_elim {a b : VectorRecord × Int} (h : queryLe a b = true) :
    b.2 ≤ a.2 ∧ (a.2 = b.2 → a.1.id ≤ b.1.id) := by
  simp only [queryLe, Bool.or_eq_true, Bool.and_eq_true, decide_eq_true_eq] at h
  rcases h with h | ⟨h1, h2⟩
  · exact ⟨le_of_lt h, fun he => by omega⟩
  · exact ⟨le_of_eq h1.symm, fun _ => h2⟩

/-- Every query result is a record of the queried snapshot, paired with its
similarity score. -/
theorem query_mem {snap : Snapshot} {e : List Int} {k : Nat}
    {x : VectorRecord × Int} (hx : x ∈ query snap e k) :
    x.1 ∈ snap ∧ x.2 = simScore e x.1 := by
  have h1 : x ∈ (snap.map (fun r => (r, simScore e r))).mergeSort queryLe :=
    (List.take_sublist _ _).mem hx
  have h2 : x ∈ snap.map (fun r => (r, simScore e r)) :=
    (List.mergeSort_perm _ _).mem_iff.mp h1
  rcases List.mem_map.mp h2 with ⟨r, hr, hrx⟩
  subst hrx
  exact ⟨hr, rfl⟩

/-! Lemmas about `upsert`. -/

/-- The snapshot elements an upsert batch leaves untouched: those whose id is
hit by no record of the batch. -/
def untouched (rs : List VectorRecord) (x : VectorRecord) : Bool :=
  !(rs.any (fun r => decide (r.id = x.id)))

theorem upsert_nil (s : Snapshot) : upsert [] s = s := rfl

theorem upsert_cons (r : VectorRecord) (rt : List VectorRecord) (s : Snapshot) :
    upsert (r :: rt) s = upsert rt (upsertOne s r) := rfl

/-- Decomposition of an upsert batch: the untouched part of the snapshot in
place, followed by the batch applied to the empty snapshot. -/
theorem upsert_eq_filter_append (rs : List VectorRecord) :
    ∀ s : Snapshot, upsert rs s = s.filter (untouched rs) ++ upsert rs [] := by
  induction rs with
  | nil =>
      intro s
      rw [upsert_nil, upsert_nil, List.append_nil]
      refine (List.filter_eq_self.mpr ?_).symm
      intro x _
      simp [untouched]
  | cons r rt ih =>
      intro s
      rw [upsert_cons, ih (upsertOne s r), upsert_cons, ih (upsertOne [] r)]
      show (upsertOne s r).filter (untouched rt) ++ upsert rt [] = _
      have h0 : upsertOne ([] : Snapshot) r = [r] := rfl
      rw [h0, upsertOne, List.filter_append, List.append_assoc]
      congr 1
      rw [List.filter_filter]
      apply List.filter_congr
      intro x _
      simp only [untouched, List.any_cons, Bool.not_or, decide_not]
      rw [Bool.and_comm]
      congr 1
      simp [eq_comm]

/-- Every element of an upserted snapshot was in the snapshot or in the batch. -/
theorem mem_upsert {x : VectorRecord} :
    ∀ {rs : List VectorRecord} {s : Snapshot}, x ∈ upsert rs s → x ∈ s ∨ x ∈ rs := by
  intro rs
  induction rs with
  | nil => intro s h; exact Or.inl h
  | cons r rt ih =>
      intro s h
      rw [upsert_cons] at h
      rcases ih h with h' | h'
      · rw [upsertOne] at h'
        rcases List.mem_append.mp h' with h'' | h''
        · exact Or.inl (List.mem_filter.mp h'').1
        · have hx : x = r := by simpa using h''
          exact Or.inr (hx ▸ List.mem_cons_self r rt)
      · exact Or.inr (List.mem_cons_of_mem r h')

/-- Elements produced by a batch on the empty snapshot carry a batch id. -/
theorem upsert_nil_ids {x : VectorRecord} {rs : List VectorRecord}
    (h : x ∈ upsert rs []) : rs.any (fun r => decide (r.id = x.id)) = true := by
  rcases mem_upsert h with h' | h'
  · cases h'
  · exact List.any_eq_true.mpr ⟨x, h', by simp⟩

/-- Applying the same upsert batch twice leaves the snapshot of the first
application unchanged. -/
theorem upsert_idem (rs : List VectorRecord) (s : Snapshot) :
    upsert rs (upsert rs s) = upsert rs s := by
  conv_lhs => rw [upsert_eq_filter_append rs (upsert rs s),
    upsert_eq_filter_append rs s]
  rw [List.filter_append, List.filter_filter]
  have h1 : (upsert rs []).filter (untouched rs) = [] := by
    rw [List.filter_eq_nil_iff]
    intro a ha
    simp only [untouched, Bool.not_eq_true']
    simpa using upsert_nil_ids ha
  have h2 : s.filter (fun a => untouched rs a && untouched rs a) =
      s.filter (untouched rs) := by
    apply List.filter_congr
    intro x _
    rw [Bool.and_self]
  rw [h1, h2, List.append_nil]
  exact (upsert_eq_filter_append rs s).symm

/-- After a single-record upsert, lookup by that id yields the new record. -/
theorem lookupId_upsertOne (s : Snapshot) (r : VectorRecord) :
    lookupId (upsertOne s r) r.id = some r := by
  rw [lookupId, upsertOne, List.find?_append]
  have h1 : (s.filter (fun x => decide (x.id ≠ r.id))).find?
      (fun x => decide (x.id = r.id)) = none := by
    rw [List.find?_eq_none]
    intro x hx
    have := (List.mem_filter.mp hx).2
    simp at this ⊢
    exact this
  rw [h1]
  simp [List.find?]

/-! Lemmas about first-occurrence deduplication. -/

theorem dedupFirst_nil : dedupFirst [] = [] := by
  rw [dedupFirst]

theorem dedupFirst_cons (x : String) (xs : List String) :
    dedupFirst (x :: xs) = x :: dedupFirst (xs.filter (fun y => decide (y ≠ x))) := by
  rw [dedupFirst]

theorem mem_dedupFirst_aux :
    ∀ (n : Nat) (l : List String), l.length ≤ n → ∀ (a : String),
      (a ∈ dedupFirst l ↔ a ∈ l) := by
  intro n
  induction n with
  | zero =>
      intro l h a
      have hl : l = [] := List.length_eq_zero.mp (Nat.le_zero.mp h)
      subst hl
      rw [dedupFirst_nil]
  | succ n ih =>
      intro l h a
      match l with
      | [] => rw [dedupFirst_nil]
      | x :: xs =>
          rw [dedupFirst_cons]
          have hxs : xs.length ≤ n := by
            simpa using Nat.succ_le_succ_iff.mp (by simpa using h)
          have hlen : (xs.filter (fun y => decide (y ≠ x))).length ≤ n :=
            le_trans (List.length_filter_le _ _) hxs
          constructor
          · intro hm
            rcases List.mem_cons.mp hm with h1 | h1
            · exact h1 ▸ List.mem_cons_self x xs
            · have h2 := (ih _ hlen a).mp h1
              exact List.mem_cons_of_mem x (List.mem_filter.mp h2).1
          · intro hm
            rcases List.mem_cons.mp hm with h1 | h1
            · exact h1 ▸ List.mem_cons_self x _
            · by_cases hax : a = x
              · exact hax ▸ List.mem_cons_self x _
              · refine List.mem_cons_of_mem x ?_
                exact (ih _ hlen a).mpr (List.mem_filter.mpr ⟨h1, by simp [hax]⟩)

theorem mem_dedupFirst {a : String} {l : List String} :
    a ∈ dedupFirst l ↔ a ∈ l :=
  mem_dedupFirst_aux l.length l le_rfl a

theorem dedupFirst_nodup_aux :
    ∀ (n : Nat) (l : List String), l.length ≤ n → (dedupFirst l).Nodup := by
  intro n
  induction n with
  | zero =>
      intro l h
      have hl : l = [] := List.length_eq_zero.mp (Nat.le_zero.mp h)
      subst hl
      rw [dedupFirst_nil]
      exact List.nodup_nil
  | succ n ih =>
      intro l h
      match l with
      | [] => rw [dedupFirst_nil]; exact List.nodup_nil
      | x :: xs =>
          rw [dedupFirst_cons]
          have hxs : xs.length ≤ n := by
            simpa using Nat.succ_le_succ_iff.mp (by simpa using h)
          have hlen : (xs.filter (fun y => decide (y ≠ x))).length ≤ n :=
            le_trans (List.length_filter_le _ _) hxs
          refine List.nodup_cons.mpr ⟨?_, ih _ hlen⟩
          intro hx
          have h2 := mem_dedupFirst.mp hx
          have h3 := (List.mem_filter.mp h2).2
          simp at h3

theorem dedupFirst_nodup (l : List String) : (dedupFirst l).Nodup :=
  dedupFirst_nodup_aux l.length l le_rfl

theorem indexOf_filter_le_iff (p : String → Bool) (a b : String)
    (ha : p a = true) (hb : p b = true) :
    ∀ (l : List String), a ∈ l → b ∈ l →
      (((l.filter p).indexOf a ≤ (l.filter p).indexOf b) ↔
        (l.indexOf a ≤ l.indexOf b)) := by
  intro l
  induction l with
  | nil => intro h; cases h
  | cons x xs ih =>
      intro hal hbl
      by_cases hpx : p x = true
      · rw [List.filter_cons_of_pos hpx]
        by_cases hax : a = x
        · subst hax
          simp [List.indexOf_cons_self]
        · by_cases hbx : b = x
          · subst hbx
            rw [List.indexOf_cons_self, List.indexOf_cons_self,
              List.indexOf_cons_ne _ (fun h' => hax h'.symm),
              List.indexOf_cons_ne _ (fun h' => hax h'.symm)]
            omega
          · have haxs : a ∈ xs := (List.mem_cons.mp hal).resolve_left hax
            have hbxs : b ∈ xs := (List.mem_cons.mp hbl).resolve_left hbx
            rw [List.indexOf_cons_ne _ (fun h' => hax h'.symm),
              List.indexOf_cons_ne _ (fun h' => hbx h'.symm),
              List.indexOf_cons_ne _ (fun h' => hax h'.symm),
              List.indexOf_cons_ne _ (fun h' => hbx h'.symm)]
            have hmain := ih haxs hbxs
            omega
      · rw [List.filter_cons_of_neg hpx]
        have hax : a ≠ x := fun h' => hpx (h' ▸ ha)
        have hbx : b ≠ x := fun h' => hpx (h' ▸ hb)
        have haxs : a ∈ xs := (List.mem_cons.mp hal).resolve_left hax
        have hbxs : b ∈ xs := (List.mem_cons.mp hbl).resolve_left hbx
        rw [List.indexOf_cons_ne _ (fun h' => hax h'.symm),
          List.indexOf_cons_ne _ (fun h' => hbx h'.symm)]
        have hmain := ih haxs hbxs
        omega

theorem dedupFirst_indexOf_aux :
    ∀ (n : Nat) (l : List String), l.length ≤ n → ∀ (a b : String),
      a ∈ dedupFirst l → b ∈ dedupFirst l →
      (((dedupFirst l).indexOf a ≤ (dedupFirst l).indexOf b) ↔
        (l.indexOf a ≤ l.indexOf b)) := by
  intro n
  induction n with
  | zero =>
      intro l h a b ha _
      have hl : l = [] := List.length_eq_zero.mp (Nat.le_zero.mp h)
      subst hl
      rw [dedupFirst_nil] at ha
      cases ha
  | succ n ih =>
      intro l h a b ha hb
      match l with
      | [] => rw [dedupFirst_nil] at ha; cases ha
      | x :: xs =>
          have hxs : xs.length ≤ n := by
            simpa using Nat.succ_le_succ_iff.mp (by simpa using h)
          have hlen : (xs.filter (fun y => decide (y ≠ x))).length ≤ n :=
            le_trans (List.length_filter_le _ _) hxs
          rw [dedupFirst_cons] at ha hb ⊢
          by_cases hax : a = x
          · subst hax
            simp [List.indexOf_cons_self]
          · by_cases hbx : b = x
            · subst hbx
              rw [List.indexOf_cons_self, List.indexOf_cons_self,
                List.indexOf_cons_ne _ (fun h' => hax h'.symm),
                List.indexOf_cons_ne _ (fun h' => hax h'.symm)]
              omega
            · have haD := (List.mem_cons.mp ha).resolve_left hax
              have hbD := (List.mem_cons.mp hb).resolve_left hbx
              have haF := mem_dedupFirst.mp haD
              have hbF := mem_dedupFirst.mp hbD
              have haxs : a ∈ xs := (List.mem_filter.mp haF).1
              have hbxs : b ∈ xs := (List.mem_filter.mp hbF).1
              rw [List.indexOf_cons_ne _ (fun h' => hax h'.symm),
                List.indexOf_cons_ne _ (fun h' => hbx h'.symm),
                List.indexOf_cons_ne _ (fun h' => hax h'.symm),
                List.indexOf_cons_ne _ (fun h' => hbx h'.symm)]
              have h1 := ih _ hlen a b haD hbD
              have h2 := indexOf_filter_le_iff (fun y => decide (y ≠ x)) a b
                (by simp [hax]) (by simp [hbx]) xs haxs hbxs
              omega

theorem dedupFirst_indexOf {l : List String} {a b : String}
    (ha : a ∈ dedupFirst l) (hb : b ∈ dedupFirst l) :
    ((dedupFirst l).indexOf a ≤ (dedupFirst l).indexOf b) ↔
      (l.indexOf a ≤ l.indexOf b) :=
  dedupFirst_indexOf_aux l.length l le_rfl a b ha hb

/-! Lemmas about the frontend embedding. -/

theorem historyPayload_length (messages : List ChatMessage) :
    (historyPayload messages).length ≤ 6 := by
  rw [historyPayload, List.length_map, List.length_drop]
  omega

theorem historyPayload_from_messages (messages : List ChatMessage) :
    ∀ it ∈ historyPayload messages, ∃ m, m ∈ messages ∧
      it.role = m.role ∧ it.content = m.content := by
  intro it hit
  rw [historyPayload] at hit
  rcases List.mem_map.mp hit with ⟨m, hm, he⟩
  exact ⟨m, (List.drop_sublist _ _).mem hm, by rw [← he], by rw [← he]⟩

theorem hasLegacyPairs_encode (m : List ChatMessage) :
    hasLegacyPairs (m.map encodeMessage) = false := by
  simp [hasLegacyPairs, encodeMessage, List.any_map, Function.comp]

theorem decode_encode (m : ChatMessage) : decodeItem (encodeMessage m) = m := rfl

theorem sortByTimestamp_sorted (items : List StoredItem) :
    List.Pairwise (fun a b : StoredItem => a.timestamp ≤ b.timestamp)
      (sortByTimestamp items) := by
  have htrans : ∀ a b c : StoredItem,
      decide (a.timestamp ≤ b.timestamp) = true →
      decide (b.timestamp ≤ c.timestamp) = true →
      decide (a.timestamp ≤ c.timestamp) = true := by
    intro a b c h1 h2
    simp only [decide_eq_true_eq] at h1 h2 ⊢
    exact le_trans h1 h2
  have htotal : ∀ a b : StoredItem,
      (decide (a.timestamp ≤ b.timestamp) ||
        decide (b.timestamp ≤ a.timestamp)) = true := by
    intro a b
    simp only [Bool.or_eq_true, decide_eq_true_eq]
    exact le_total a.timestamp b.timestamp
  have h := List.sorted_mergeSort htrans htotal items
  exact h.imp (fun h' => by simpa using h')

theorem flatMap_pairs_sorted (f g : StoredItem → ChatMessage)
    (hf : ∀ it, (f it).timestamp = it.timestamp)
    (hg : ∀ it, (g it).timestamp = it.timestamp) :
    ∀ (l : List StoredItem),
      List.Pairwise (fun a b : StoredItem => a.timestamp ≤ b.timestamp) l →
      List.Pairwise (fun a b : ChatMessage => a.timestamp ≤ b.timestamp)
        (l.flatMap (fun it => [f it, g it])) := by
  intro l
  induction l with
  | nil => intro _; simp
  | cons it t ih =>
      intro hp
      rcases List.pairwise_cons.mp hp with ⟨hhead, htail⟩
      rw [List.flatMap_cons, List.pairwise_append]
      refine ⟨?_, ih htail, ?_⟩
      · refine List.pairwise_cons.mpr ⟨?_, by simp⟩
        intro q hq
        have hq' : q = g it := by simpa using hq
        rw [hf it, hq', hg it]
      · intro p hp1 q hq1
        have hpts : p.timestamp = it.timestamp := by
          rcases List.mem_cons.mp hp1 with h1 | h1
          · rw [h1, hf it]
          · have h2 : p = g it := by simpa using h1
            rw [h2, hg it]
        rcases List.mem_flatMap.mp hq1 with ⟨jt, hjt, hq2⟩
        have hqts : q.timestamp = jt.timestamp := by
          rcases List.mem_cons.mp hq2 with h1 | h1
          · rw [h1, hf jt]
          · have h2 : q = g jt := by simpa using h1
            rw [h2, hg jt]
        rw [hpts, hqts]
        exact hhead jt hjt

theorem migrateLegacy_sorted (items : List StoredItem) :
    List.Pairwise (fun a b : ChatMessage => a.timestamp ≤ b.timestamp)
      (migrateLegacy items) := by
  rw [migrateLegacy]
  exact flatMap_pairs_sorted
    (fun it => { id := it.id ++ "-q", role := "user",
                 content := it.question.getD "", timestamp := it.timestamp })
    (fun it => { id := it.id ++ "-a", role := "assistant",
                 content := it.answer.getD "", timestamp := it.timestamp })
    (fun _ => rfl) (fun _ => rfl) _ (sortByTimestamp_sorted items)

/-! Claim theorems. -/

/-- C1: a query running concurrently with a rebuild takes one atomic read of
the published snapshot reference — the pre-rebuild contents before the swap,
the post-rebuild contents after — so its result set is drawn entirely from
one of the two and never mixes ids of both; `rebuild` publishes the new
contents whole, in a single reference swap. -/
theorem query_during_rebuild_unmixed (old new : Snapshot) (e : List Int)
    (k : Nat) (swapped : Bool) :
    rebuild old new = new ∧
    ((∀ x ∈ query (observe old new swapped) e k, x.1 ∈ old) ∨
      (∀ x ∈ query (observe old new swapped) e k, x.1 ∈ new)) := by
  refine ⟨rfl, ?_⟩
  cases swapped
  · refine Or.inl (fun x hx => ?_)
    exact (query_mem (by simpa [observe, rebuild] using hx)).1
  · refine Or.inr (fun x hx => ?_)
    exact (query_mem (by simpa [observe, rebuild] using hx)).1

/-- C2: for every embedding and every k, `query(e, k)` returns at most k
results, ordered by non-increasing similarity score, and among equal scores
the smaller id comes first. -/
theorem query_topk_sorted (snap : Snapshot) (e : List Int) (k : Nat) :
    (query snap e k).length ≤ k ∧
    List.Pairwise
      (fun a b : VectorRecord × Int =>
        b.2 ≤ a.2 ∧ (a.2 = b.2 → a.1.id ≤ b.1.id))
      (query snap e k) := by
  constructor
  · rw [query, List.length_take]
    omega
  · have hs := List.sorted_mergeSort queryLe_trans queryLe_total
      (snap.map (fun r => (r, simScore e r)))
    have hsub : (query snap e k).Sublist
        ((snap.map (fun r => (r, simScore e r))).mergeSort queryLe) :=
      List.take_sublist _ _
    exact (List.Pairwise.sublist hsub hs).imp (fun h => queryLe_elim h)

/-- C3: the `sources` of the Answer returned by `compose` are exactly the
distinct document ids of the retrieved passages, duplicates removed, in order
of first occurrence among the passages. -/
theorem compose_sources_dedup (gen : String → String) (question : String)
    (history : List (String × String)) (passages : List RetrievedPassage)
    (latency : Nat) :
    (compose gen question history passages latency).sources.Nodup ∧
    (∀ d, d ∈ (compose gen question history passages latency).sources ↔
      d ∈ passages.map (fun p => p.document_id)) ∧
    (∀ a b, a ∈ (compose gen question history passages latency).sources →
      b ∈ (compose gen question history passages latency).sources →
      (((compose gen question history passages latency).sources.indexOf a ≤
          (compose gen question history passages latency).sources.indexOf b) ↔
        ((passages.map (fun p => p.document_id)).indexOf a ≤
          (passages.map (fun p => p.document_id)).indexOf b))) :=
  ⟨dedupFirst_nodup _, fun _ => mem_dedupFirst,
    fun _ _ ha hb => dedupFirst_indexOf ha hb⟩

/-- C4: `upsert` is idempotent — applying the same batch twice leaves the
index state identical to applying it once — and upserting a record whose id
already exists replaces the prior vector, metadata and text for that id. -/
theorem upsert_idempotent_replaces (rs : List VectorRecord) (s : Snapshot)
    (r : VectorRecord) (hex : r.id ∈ s.map VectorRecord.id) :
    upsert rs (upsert rs s) = upsert rs s ∧
    lookupId (upsert [r] s) r.id = some r := by
  refine ⟨upsert_idem rs s, ?_⟩
  show lookupId (upsertOne s r) r.id = some r
  exact lookupId_upsertOne s r

/-- C5: a reindex requested while one is in flight fails immediately with
`ReindexInProgress`, is neither queued nor interleaved (the coordinator holds
no pending work), and the in-flight flag and index snapshot are returned
unchanged. -/
theorem reindex_mutual_exclusion (c : Coordinator)
    (newRecords : List VectorRecord) (h : c.inFlight = true) :
    reindexOp c newRecords = (Except.error CoreError.reindexInProgress, c) := by
  rw [reindexOp, if_pos h]

/-- C6: a question whose retrieval yields no passage at or above the
similarity threshold still produces a well-formed Answer — not an error —
carrying the explicit no-grounding indication and no sources. -/
theorem answerQuestion_no_grounding
    (embed : String → Except CoreError (List Int)) (gen : String → String)
    (snap : Snapshot) (k : Nat) (threshold : Int) (question : String)
    (history : List (String × String)) (latency : Nat) (emb : List Int)
    (hemb : embed question = Except.ok emb)
    (hempty : retrieve snap emb k threshold = []) :
    answerQuestion embed gen snap k threshold question history latency =
      Except.ok { text := noGroundingText, sources := [],
                  generation_latency := latency } := by
  rw [answerQuestion, hemb]
  simp [hempty]

/-- C7: `health` returns the probe record with exactly the three boolean
fields `index_ready`, `embedding_reachable`, `generation_reachable` — any two
HealthStatus values agreeing on those three fields are equal — and leaves the
core state untouched. -/
theorem healthOp_no_side_effects (embedOk genOk : Bool) (c : Coordinator) :
    (healthOp embedOk genOk c).2 = c ∧
    (∀ h h' : HealthStatus, h.index_ready = h'.index_ready →
      h.embedding_reachable = h'.embedding_reachable →
      h.generation_reachable = h'.generation_reachable → h = h') := by
  refine ⟨rfl, ?_⟩
  intro h h' e1 e2 e3
  cases h
  cases h'
  simp_all

/-- C8: an accepted submission sends askQuestion the trimmed question with a
history payload of at most the last 6 chat messages, each reduced to exactly
its role and content in original order, computed from the messages as they
were before the submitted question's user message is appended. -/
theorem handleSubmit_history_payload (s : HomeState)
    (userId asstId now : String) (callResult : Except Unit AnswerResponse)
    (hload : s.isLoading = false) (hq : jsTrim s.question ≠ "") :
    (handleSubmit s userId asstId now callResult).2 =
      some (jsTrim s.question, historyPayload s.messages) ∧
    (historyPayload s.messages).length ≤ 6 ∧
    historyPayload s.messages =
      (s.messages.drop (s.messages.length - 6)).map
        (fun m => ChatHistoryItem.mk m.role m.content) ∧
    (∀ it ∈ historyPayload s.messages, ∃ m, m ∈ s.messages ∧
      it.role = m.role ∧ it.content = m.content) := by
  refine ⟨?_, historyPayload_length s.messages, rfl,
    historyPayload_from_messages s.messages⟩
  cases callResult <;> simp [handleSubmit, hload, hq]

/-- C9: when askQuestion rejects, handleSubmit appends an assistant message
with the fixed failure text and sets errorMessage to the same text, the user
message appended for the submission staying in the list; on success and on
failure alike the message list grows by exactly two entries. -/
theorem handleSubmit_failure_growth (s : HomeState)
    (userId asstId now : String) (resp : AnswerResponse)
    (hload : s.isLoading = false) (hq : jsTrim s.question ≠ "") :
    (handleSubmit s userId asstId now (Except.error ())).1.messages =
      s.messages ++
        [{ id := userId, role := "user", content := jsTrim s.question,
           timestamp := now },
         { id := asstId, role := "assistant", content := fetchFailureText,
           timestamp := now }] ∧
    (handleSubmit s userId asstId now (Except.error ())).1.errorMessage =
      some fetchFailureText ∧
    (handleSubmit s userId asstId now (Except.error ())).1.messages.length =
      s.messages.length + 2 ∧
    (handleSubmit s userId asstId now (Except.ok resp)).1.messages.length =
      s.messages.length + 2 := by
  refine ⟨?_, ?_, ?_, ?_⟩ <;> simp [handleSubmit, hload, hq]

/-- C10: persistence round-trips — the load effect restores exactly the
message list the save effect stored, leaving the slot alone; a stored value
that fails to parse is removed instead of throwing; and an array of legacy
question/answer pairs is migrated into user/assistant message pairs ordered
by timestamp. -/
theorem chat_persistence (m : List ChatMessage) (items : List StoredItem)
    (hleg : hasLegacyPairs items = true) :
    loadEffect (some (saveValue m)) = (m, some (saveValue m)) ∧
    loadEffect (some StoredData.unparseable) = ([], none) ∧
    (loadEffect (some (StoredData.arr items))).1 = migrateLegacy items ∧
    List.Pairwise (fun a b : ChatMessage => a.timestamp ≤ b.timestamp)
      (migrateLegacy items) := by
  refine ⟨?_, rfl, ?_, migrateLegacy_sorted items⟩
  · have hdec : decodeItem ∘ encodeMessage = id := funext decode_encode
    rw [saveValue, loadEffect]
    simp [hasLegacyPairs_encode, List.map_map, hdec]
  · simp [loadEffect, hleg]

/-! Closed witness statements, one per claim theorem. -/

/-- Witness for C1: concrete query around a concrete rebuild. -/
theorem query_during_rebuild_unmixed_witness :
    rebuild [recA] [recB] = [recB] ∧
    ((∀ x ∈ query (observe [recA] [recB] true) [1, 0] 2, x.1 ∈ [recA]) ∨
      (∀ x ∈ query (observe [recA] [recB] true) [1, 0] 2, x.1 ∈ [recB])) :=
  query_during_rebuild_unmixed [recA] [recB] [1, 0] 2 true

/-- Witness for C2: concrete two-record query. -/
theorem query_topk_sorted_witness :
    (query [recA, recB] [1, 0] 2).length ≤ 2 ∧
    List.Pairwise
      (fun a b : VectorRecord × Int =>
        b.2 ≤ a.2 ∧ (a.2 = b.2 → a.1.id ≤ b.1.id))
      (query [recA, recB] [1, 0] 2) :=
  query_topk_sorted [recA, recB] [1, 0] 2

/-- Witness for C3: concrete compose over two passages. -/
theorem compose_sources_dedup_witness :
    (compose genStub "q" [] [passA, passB] 7).sources.Nodup ∧
    (∀ d, d ∈ (compose genStub "q" [] [passA, passB] 7).sources ↔
      d ∈ [passA, passB].map (fun p => p.document_id)) ∧
    (∀ a b, a ∈ (compose genStub "q" [] [passA, passB] 7).sources →
      b ∈ (compose genStub "q" [] [passA, passB] 7).sources →
      (((compose genStub "q" [] [passA, passB] 7).sources.indexOf a ≤
          (compose genStub "q" [] [passA, passB] 7).sources.indexOf b) ↔
        (([passA, passB].map (fun p => p.document_id)).indexOf a ≤
          ([passA, passB].map (fun p => p.document_id)).indexOf b))) :=
  compose_sources_dedup genStub "q" [] [passA, passB] 7

/-- Witness for C4: concrete double upsert and replacement of an existing id. -/
theorem upsert_idempotent_replaces_witness :
    recAv2.id ∈ ([recA] : Snapshot).map VectorRecord.id ∧
    (upsert [recB] (upsert [recB] [recA]) = upsert [recB] [recA] ∧
      lookupId (upsert [recAv2] [recA]) recAv2.id = some recAv2) :=
  ⟨by decide, upsert_idempotent_replaces [recB] [recA] recAv2 (by decide)⟩

/-- Witness for C5: concrete busy coordinator. -/
theorem reindex_mutual_exclusion_witness :
    coordBusy.inFlight = true ∧
    reindexOp coordBusy [recB] =
      (Except.error CoreError.reindexInProgress, coordBusy) :=
  ⟨rfl, reindex_mutual_exclusion coordBusy [recB] rfl⟩

/-- Witness for C6: concrete question over an empty index. -/
theorem answerQuestion_no_grounding_witness :
    embedStub "q" = Except.ok [1] ∧
    retrieve [] [1] 3 0 = [] ∧
    answerQuestion embedStub genStub [] 3 0 "q" [] 5 =
      Except.ok { text := noGroundingText, sources := [],
                  generation_latency := 5 } :=
  ⟨rfl, by simp [retrieve, query, List.mergeSort_nil],
    answerQuestion_no_grounding embedStub genStub [] 3 0 "q" [] 5 [1] rfl
      (by simp [retrieve, query, List.mergeSort_nil])⟩

/-- Witness for C7: concrete health probe. -/
theorem healthOp_no_side_effects_witness :
    (healthOp true false coordBusy).2 = coordBusy ∧
    (∀ h h' : HealthStatus, h.index_ready = h'.index_ready →
      h.embedding_reachable = h'.embedding_reachable →
      h.generation_reachable = h'.generation_reachable → h = h') :=
  healthOp_no_side_effects true false coordBusy

/-- Witness for C8: concrete submission from a two-message chat. -/
theorem handleSubmit_history_payload_witness :
    sampleHome.isLoading = false ∧ jsTrim sampleHome.question ≠ "" ∧
    ((handleSubmit sampleHome "u1" "a1" "t9" (Except.error ())).2 =
      some (jsTrim sampleHome.question, historyPayload sampleHome.messages) ∧
    (historyPayload sampleHome.messages).length ≤ 6 ∧
    historyPayload sampleHome.messages =
      (sampleHome.messages.drop (sampleHome.messages.length - 6)).map
        (fun m => ChatHistoryItem.mk m.role m.content) ∧
    (∀ it ∈ historyPayload sampleHome.messages, ∃ m, m ∈ sampleHome.messages ∧
      it.role = m.role ∧ it.content = m.content)) :=
  ⟨rfl, by decide,
    handleSubmit_history_payload sampleHome "u1" "a1" "t9" (Except.error ())
      rfl (by decide)⟩

/-- Witness for C9: concrete failed and successful submissions. -/
theorem handleSubmit_failure_growth_witness :
    sampleHome.isLoading = false ∧ jsTrim sampleHome.question ≠ "" ∧
    ((handleSubmit sampleHome "u1" "a1" "t9" (Except.error ())).1.messages =
      sampleHome.messages ++
        [{ id := "u1", role := "user", content := jsTrim sampleHome.question,
           timestamp := "t9" },
         { id := "a1", role := "assistant", content := fetchFailureText,
           timestamp := "t9" }] ∧
    (handleSubmit sampleHome "u1" "a1" "t9" (Except.error ())).1.errorMessage =
      some fetchFailureText ∧
    (handleSubmit sampleHome "u1" "a1" "t9"
        (Except.error ())).1.messages.length =
      sampleHome.messages.length + 2 ∧
    (handleSubmit sampleHome "u1" "a1" "t9"
        (Except.ok respStub)).1.messages.length =
      sampleHome.messages.length + 2) :=
  ⟨rfl, by decide,
    handleSubmit_failure_growth sampleHome "u1" "a1" "t9" respStub rfl
      (by decide)⟩

/-- Witness for C10: concrete round trip and concrete legacy migration. -/
theorem chat_persistence_witness :
    hasLegacyPairs [legacyA, legacyB] = true ∧
    (loadEffect (some (saveValue [msgA])) = ([msgA], some (saveValue [msgA])) ∧
    loadEffect (some StoredData.unparseable) = ([], none) ∧
    (loadEffect (some (StoredData.arr [legacyA, legacyB]))).1 =
      migrateLegacy [legacyA, legacyB] ∧
    List.Pairwise (fun a b : ChatMessage => a.timestamp ≤ b.timestamp)
      (migrateLegacy [legacyA, legacyB])) :=
  ⟨rfl, chat_persistence [msgA] [legacyA, legacyB] rfl⟩

end AIJobSeeker
